import Mathlib

/-!
Verification development for the startup revenue tracker
(`src/config.py`, `src/revenue_analyzer.py`, `src/scraper.py`, `src/database.py`).

The Python code is shallowly embedded:
* text is `List Char`;
* the regular expressions of `Config.REVENUE_PATTERNS` and the company
  patterns of `RevenueAnalyzer` are embedded as backtracking parsers over
  `List Char` that return every parse in Python's backtracking priority
  order (leftmost alternative first, greedy quantifiers first), so that the
  head of the list is the parse Python's `re` engine commits to;
* all seven revenue patterns and the three primary company patterns are
  compiled with `re.IGNORECASE`, so their literals match case-insensitively
  and their character classes `[A-Z]`/`[a-z]` both match any ASCII letter;
  the fallback `cap_words_pattern` is compiled without flags and is
  modelled case-sensitively;
* Python floats are modelled as rationals (all arithmetic the analyzer
  performs on the values that occur in the claims is exact in binary
  floating point, so the rational model agrees with the float one);
* fallible steps return `Option`/`Except`.
-/

namespace Sourcerer

/-- Python's `\s` on an ASCII string: space, tab, newline, carriage return,
form feed, vertical tab. -/
def isSpaceRe (c : Char) : Bool :=
  c == ' ' || c == '\t' || c == '\n' || c == '\r' || c == '\x0b' || c == '\x0c'

/-- Python's `\d` (ASCII). -/
def isDigitRe (c : Char) : Bool := c.isDigit

/-- Python's `\w` (ASCII): letters, digits, underscore.  Used for `\b`. -/
def isWordRe (c : Char) : Bool := c.isAlphanum || c == '_'

/-- `[A-Z]` and `[a-z]` under `re.IGNORECASE`: any ASCII letter. -/
def isAlphaRe (c : Char) : Bool := c.isAlpha

/-- Case-insensitive character comparison (`re.IGNORECASE`). -/
def ciEq (a b : Char) : Bool := a.toLower == b.toLower

/-- A backtracking matcher: all parses, in Python `re` priority order.
Each parse is (captured value, remaining input). -/
def Parser (α : Type) : Type := List Char → List (α × List Char)

/-- `join`-`map` over lists, used to sequence matchers. -/
def joinMap (f : α → List β) : List α → List β
  | [] => []
  | a :: as => f a ++ joinMap f as

def ppure (a : α) : Parser α := fun s => [(a, s)]

def pfail : Parser α := fun _ => []

def pbind (p : Parser α) (f : α → Parser β) : Parser β :=
  fun s => joinMap (fun x => f x.1 x.2) (p s)

/-- Ordered alternation: `p` preferred over `q` (regex `|`). -/
def palt (p q : Parser α) : Parser α := fun s => p s ++ q s

def pmap (f : α → β) (p : Parser α) : Parser β := pbind p (fun a => ppure (f a))

/-- Greedy run of a character class with a minimum length (`\d+`, `\s*`,
`[a-z]+`, ...): the longest run first, then each shorter prefix. -/
def pruns (f : Char → Bool) (minLen : Nat) : Parser (List Char) := fun s =>
  let k := (s.takeWhile f).length
  (List.range (k + 1)).filterMap (fun j =>
    let i := k - j
    if minLen ≤ i then some (s.take i, s.drop i) else none)

/-- Case-insensitive literal (every pattern is compiled with
`re.IGNORECASE`); captures the characters actually present in the text. -/
def plitCI : List Char → Parser (List Char)
  | [] => fun s => [([], s)]
  | w :: ws => fun s =>
    match s with
    | [] => []
    | c :: cs =>
      if ciEq c w then (plitCI ws cs).map (fun x => (c :: x.1, x.2)) else []

/-- Ordered alternation of case-insensitive literals (`a|b|c`). -/
def palts : List (List Char) → Parser (List Char)
  | [] => pfail
  | w :: ws => palt (plitCI w) (palts ws)

/-- Greedy star (fuel-bounded): more repetitions preferred, concatenating
the captured text. -/
def pstarL (p : Parser (List Char)) : Nat → Parser (List Char)
  | 0 => ppure []
  | n + 1 =>
    palt (pbind p fun x => pbind (pstarL p n) fun xs => ppure (x ++ xs)) (ppure [])

/-- Greedy option `(...)?`, capture-less. -/
def poptU (p : Parser α) : Parser Unit := palt (pmap (fun _ => ()) p) (ppure ())

/-- `\d{3}`. -/
def pdigits3 : Parser (List Char) := fun s =>
  match s with
  | c1 :: c2 :: c3 :: rest =>
    if isDigitRe c1 && isDigitRe c2 && isDigitRe c3 then [([c1, c2, c3], rest)] else []
  | _ => []

/-- The named group `(?P<amount>\d+(?:,\d\x7b3\x7d)*(?:\.\d+)?)` shared by all
seven revenue patterns. -/
def pamount : Parser (List Char) := fun s =>
  (pbind (pruns isDigitRe 1) fun d =>
   pbind (pstarL (pbind (plitCI [',']) fun comma =>
                  pbind pdigits3 fun ds => ppure (comma ++ ds)) (s.length + 1)) fun grps =>
   pbind (poptFrac) fun frac =>
   ppure (d ++ grps ++ frac)) s
where
  poptFrac : Parser (List Char) :=
    palt (pbind (plitCI ['.']) fun dot =>
          pbind (pruns isDigitRe 1) fun fs => ppure (dot ++ fs)) (ppure [])

/-- `\s*`. -/
def psp0 : Parser (List Char) := pruns isSpaceRe 0

/-- `\s+`. -/
def psp1 : Parser (List Char) := pruns isSpaceRe 1

/-- The named group `(?P<unit>million|M|mn)`. -/
def punitM : Parser (List Char) := palts ["million".toList, "M".toList, "mn".toList]

/-- The named group `(?P<unit>billion)`. -/
def punitB : Parser (List Char) := plitCI "billion".toList

/-- The alternative `annual\s*recurring\s*revenue` of the type group. -/
def pannual : Parser (List Char) :=
  pbind (plitCI "annual".toList) fun a =>
  pbind psp0 fun s1 =>
  pbind (plitCI "recurring".toList) fun b =>
  pbind psp0 fun s2 =>
  pbind (plitCI "revenue".toList) fun c =>
  ppure (a ++ s1 ++ b ++ s2 ++ c)

/-- The named group
`(?P<type>revenue|ARR|annual\s*recurring\s*revenue|bookings|sales)`. -/
def ptypeKinds : Parser (List Char) :=
  palt (plitCI "revenue".toList)
    (palt (plitCI "ARR".toList)
      (palt pannual
        (palt (plitCI "bookings".toList) (plitCI "sales".toList))))

/-- `(?:in\s*)?`. -/
def pinopt : Parser Unit :=
  poptU (pbind (plitCI "in".toList) fun _ => psp0)

/-- `(?:dollar|USD)?`. -/
def pdollaropt : Parser Unit :=
  poptU (palt (plitCI "dollar".toList) (plitCI "USD".toList))

/-- `(?:of|reached|hit|generated|reported)?`. -/
def pverbopt : Parser Unit :=
  poptU (palts ["of".toList, "reached".toList, "hit".toList,
                "generated".toList, "reported".toList])

/-- The named capture groups of one `re` match, as the analyzer reads them
(`match.group('amount')`, `match.group('unit')`, `match.groupdict()['type']`). -/
structure MatchRec where
  amount : List Char
  unitTok : Option (List Char)
  typeTok : Option (List Char)
deriving DecidableEq, Repr

/-- Pattern 1 of `Config.REVENUE_PATTERNS`:
`\$(?P<amount>...)\s*(?P<unit>million|M|mn)\s*(?:in\s*)?(?P<type>...)`. -/
def pat1 : Parser MatchRec :=
  pbind (plitCI ['$']) fun _ =>
  pbind pamount fun amt =>
  pbind psp0 fun _ =>
  pbind punitM fun u =>
  pbind psp0 fun _ =>
  pbind pinopt fun _ =>
  pbind ptypeKinds fun ty =>
  ppure ⟨amt, some u, some ty⟩

/-- Pattern 2:
`(?P<amount>...)\s*(?P<unit>million|M|mn)\s*(?:dollar|USD)?\s*(?:in\s*)?(?P<type>...)`. -/
def pat2 : Parser MatchRec :=
  pbind pamount fun amt =>
  pbind psp0 fun _ =>
  pbind punitM fun u =>
  pbind psp0 fun _ =>
  pbind pdollaropt fun _ =>
  pbind psp0 fun _ =>
  pbind pinopt fun _ =>
  pbind ptypeKinds fun ty =>
  ppure ⟨amt, some u, some ty⟩

/-- Shared shape of patterns 3-5:
`(?P<type>KIND)\s*(?:of|reached|hit|generated|reported)?\s*\$?(?P<amount>...)\s*(?P<unit>million|M|mn)`. -/
def patKindFirst (kw : List Char) : Parser MatchRec :=
  pbind (plitCI kw) fun ty =>
  pbind psp0 fun _ =>
  pbind pverbopt fun _ =>
  pbind psp0 fun _ =>
  pbind (poptU (plitCI ['$'])) fun _ =>
  pbind pamount fun amt =>
  pbind psp0 fun _ =>
  pbind punitM fun u =>
  ppure ⟨amt, some u, some ty⟩

/-- Pattern 3 (`revenue` first). -/
def pat3 : Parser MatchRec := patKindFirst "revenue".toList

/-- Pattern 4 (`ARR` first). -/
def pat4 : Parser MatchRec := patKindFirst "ARR".toList

/-- Pattern 5 (`bookings` first). -/
def pat5 : Parser MatchRec := patKindFirst "bookings".toList

/-- Pattern 6:
`\$(?P<amount>...)\s*(?P<unit>billion)\s*(?:in\s*)?(?P<type>...)`. -/
def pat6 : Parser MatchRec :=
  pbind (plitCI ['$']) fun _ =>
  pbind pamount fun amt =>
  pbind psp0 fun _ =>
  pbind punitB fun u =>
  pbind psp0 fun _ =>
  pbind pinopt fun _ =>
  pbind ptypeKinds fun ty =>
  ppure ⟨amt, some u, some ty⟩

/-- Pattern 7:
`(?P<amount>...)\s*(?P<unit>billion)\s*(?:dollar|USD)?\s*(?:in\s*)?(?P<type>...)`. -/
def pat7 : Parser MatchRec :=
  pbind pamount fun amt =>
  pbind psp0 fun _ =>
  pbind punitB fun u =>
  pbind psp0 fun _ =>
  pbind pdollaropt fun _ =>
  pbind psp0 fun _ =>
  pbind pinopt fun _ =>
  pbind ptypeKinds fun ty =>
  ppure ⟨amt, some u, some ty⟩

/-- `Config.REVENUE_PATTERNS`, in source order. -/
def revenuePatterns : List (Parser MatchRec) := [pat1, pat2, pat3, pat4, pat5, pat6, pat7]

/-- `pattern.finditer(text)`: scan left to right; at each position commit to
the engine's preferred parse; resume after the end of each match (Python
advances one character on a zero-width match). Fuel-bounded so that it is
structurally recursive; `findIter` supplies sufficient fuel. -/
def findIterAux (p : Parser α) : Nat → List Char → List α
  | 0, _ => []
  | _ + 1, [] =>
    match (p []).head? with
    | some (a, _) => [a]
    | none => []
  | fuel + 1, c :: cs =>
    match (p (c :: cs)).head? with
    | some (a, rest) =>
      a :: (if rest.length ≤ cs.length then findIterAux p fuel rest else findIterAux p fuel cs)
    | none => findIterAux p fuel cs

def findIter (p : Parser α) (s : List Char) : List α := findIterAux p (s.length + 1) s

/-! ## `RevenueAnalyzer._extract_revenue_info` -/

/-- `re.sub(r'[,$]', '', amount_str)`. -/
def cleanAmount (s : List Char) : List Char := s.filter (fun c => !(c == ',' || c == '$'))

/-- Numeric value of a digit string. -/
def digitsVal (l : List Char) : Nat := l.foldl (fun n c => 10 * n + (c.toNat - '0'.toNat)) 0

/-- `float(amount_str)` on the digit strings the amount group yields
(`\d+`, optionally followed by `.` and more digits); Python floats are
modelled as exact rationals.  `none` models `ValueError`. -/
def parseFloat (s : List Char) : Option ℚ :=
  let ip := s.takeWhile isDigitRe
  let rest := s.drop ip.length
  match rest with
  | [] => if ip.isEmpty then none else some (digitsVal ip : ℚ)
  | '.' :: fr =>
    if fr.all isDigitRe && !(ip.isEmpty && fr.isEmpty) then
      some ((digitsVal ip : ℚ) + (digitsVal fr : ℚ) / ((10 : ℚ) ^ fr.length))
    else none
  | _ => none

def isPrefOf : List Char → List Char → Bool
  | [], _ => true
  | _ :: _, [] => false
  | a :: as, b :: bs => a == b && isPrefOf as bs

/-- Python's `needle in haystack` on strings: contiguous substring test. -/
def subStr (n : List Char) : List Char → Bool
  | [] => n.isEmpty
  | c :: t => isPrefOf n (c :: t) || subStr n t

/-- The unit-normalization chain of `_extract_revenue_info` (lines 82-91):
the four branches test `'billion' in unit or 'b' in unit`,
`'million' in unit or 'm' in unit`, `'thousand' in unit or 'k' in unit`,
and finally the unit-less `amount > 1000` heuristic. -/
def convertUnit (u : List Char) (a : ℚ) : ℚ :=
  if subStr "billion".toList u || subStr "b".toList u then a * 1000
  else if subStr "million".toList u || subStr "m".toList u then a
  else if subStr "thousand".toList u || subStr "k".toList u then a / 1000
  else if 1000 < a then a / 1000000 else a

/-- `match.group('unit').lower() if match.group('unit') else ''`. -/
def unitLower (m : MatchRec) : List Char :=
  match m.unitTok with
  | some u => u.map Char.toLower
  | none => []

/-- `match.group('type') if 'type' in match.groupdict() else 'revenue'`. -/
def typeOf (m : MatchRec) : List Char := m.typeTok.getD "revenue".toList

/-- The inner `for match in matches` loop of `_extract_revenue_info`:
a match whose amount fails to parse is skipped (`except ValueError:
continue`); a parsed match is returned only when the converted amount
reaches the threshold, otherwise scanning continues. -/
def processMatches (th : ℚ) : List MatchRec → Option (List Char × ℚ)
  | [] => none
  | m :: ms =>
    match parseFloat (cleanAmount m.amount) with
    | none => processMatches th ms
    | some a =>
      let amt := convertUnit (unitLower m) a
      if th ≤ amt then some (typeOf m, amt) else processMatches th ms

/-- The outer `for pattern in self.revenue_patterns` loop. -/
def extractLoop (th : ℚ) (text : List Char) : List (Parser MatchRec) → Option (List Char × ℚ)
  | [] => none
  | p :: ps =>
    match processMatches th (findIter p text) with
    | some r => some r
    | none => extractLoop th text ps

/-- `Config.REVENUE_THRESHOLD` default: `float(os.getenv('REVENUE_THRESHOLD', '30'))`. -/
def REVENUE_THRESHOLD : ℚ := 30

/-- `RevenueAnalyzer._extract_revenue_info`, parameterized by the configured
threshold. -/
def extractRevenueInfo (th : ℚ) (text : List Char) : Option (List Char × ℚ) :=
  extractLoop th text revenuePatterns

/-! ## `RevenueAnalyzer._extract_company_name` -/

/-- The capture group `([A-Z][a-z]+(?:\s+[A-Z][a-z]+)*)` of the company
patterns; under `re.IGNORECASE` both classes match any ASCII letter. -/
def pcapSeq : Parser (List Char) := fun s =>
  (pbind pcapWord fun w =>
   pbind (pstarL (pbind psp1 fun sp =>
                  pbind pcapWord fun w2 => ppure (sp ++ w2)) (s.length + 1)) fun rest =>
   ppure (w ++ rest)) s
where
  pcapWord : Parser (List Char) := fun s =>
    match s with
    | [] => []
    | c :: cs =>
      if isAlphaRe c then
        (pruns isAlphaRe 1 cs).map (fun x => (c :: x.1, x.2))
      else []

/-- Company pattern 0: `(?:startup|company)\s+([A-Z][a-z]+(?:\s+[A-Z][a-z]+)*)`. -/
def patCompany0 : Parser (List Char) :=
  pbind (palt (plitCI "startup".toList) (plitCI "company".toList)) fun _ =>
  pbind psp1 fun _ =>
  pcapSeq

/-- Company pattern 1: `([A-Z][a-z]+(?:\s+[A-Z][a-z]+)*)\s+(?:raised|secured|announced)`. -/
def patCompany1 : Parser (List Char) :=
  pbind pcapSeq fun g =>
  pbind psp1 fun _ =>
  pbind (palts ["raised".toList, "secured".toList, "announced".toList]) fun _ =>
  ppure g

/-- Company pattern 2: `([A-Z][a-z]+(?:\s+[A-Z][a-z]+)*)\s+(?:reported|generated|posted)`. -/
def patCompany2 : Parser (List Char) :=
  pbind pcapSeq fun g =>
  pbind psp1 fun _ =>
  pbind (palts ["reported".toList, "generated".toList, "posted".toList]) fun _ =>
  ppure g

/-- `RevenueAnalyzer.company_patterns`, in source order: the
startup/company-prefixed pattern is first, then raised/secured/announced,
then reported/generated/posted. -/
def companyPatterns : List (Parser (List Char)) := [patCompany0, patCompany1, patCompany2]

/-- `pattern.search(text)`: the leftmost position with a match, fuel-bounded
scan (`search` tries the empty remainder as well). -/
def searchAux (p : Parser α) : Nat → List Char → Option α
  | 0, _ => none
  | _ + 1, [] => (p []).head?.map (fun x => x.1)
  | fuel + 1, c :: cs =>
    match (p (c :: cs)).head? with
    | some (a, _) => some a
    | none => searchAux p fuel cs

def searchP (p : Parser α) (s : List Char) : Option α := searchAux p (s.length + 1) s

/-- Python `str.strip()`. -/
def stripL (s : List Char) : List Char :=
  ((s.dropWhile isSpaceRe).reverse.dropWhile isSpaceRe).reverse

/-- The primary loop of `_extract_company_name`: first pattern (in list
order) whose stripped capture is longer than 2 characters wins; a pattern
whose capture is too short falls through to the next pattern. -/
def primaryCompanyLoop (text : List Char) : List (Parser (List Char)) → Option (List Char)
  | [] => none
  | p :: ps =>
    match searchP p text with
    | some g =>
      let name := stripL g
      if 2 < name.length then some name else primaryCompanyLoop text ps
    | none => primaryCompanyLoop text ps

/-- `[A-Z][a-z]+` of `cap_words_pattern`, which — unlike the three primary
company patterns — is compiled without `re.IGNORECASE`, so `[A-Z]` is
uppercase only and `[a-z]` lowercase only. -/
def pcapWordCS : Parser (List Char) := fun s =>
  match s with
  | [] => []
  | c :: cs =>
    if c.isUpper then
      (pruns Char.isLower 1 cs).map (fun x => (c :: x.1, x.2))
    else []

/-- The case-sensitive sequence `[A-Z][a-z]+(?:\s+[A-Z][a-z]+)*` of
`cap_words_pattern`. -/
def pcapSeqCS : Parser (List Char) := fun s =>
  (pbind pcapWordCS fun w =>
   pbind (pstarL (pbind psp1 fun sp =>
                  pbind pcapWordCS fun w2 => ppure (sp ++ w2)) (s.length + 1)) fun rest =>
   ppure (w ++ rest)) s

/-- The fallback matcher `\b[A-Z][a-z]+(?:\s+[A-Z][a-z]+)*\b` (compiled
without flags): the capture sequence followed by a trailing word boundary
(the leading boundary is enforced by the scanner). -/
def pcapSeqB : Parser (List Char) := fun s =>
  (pcapSeqCS s).filter (fun x =>
    match x.2 with
    | [] => true
    | c :: _ => !isWordRe c)

/-- `cap_words_pattern.findall(text)`: scan with word-boundary tracking via
the previous character; resume after each match. -/
def findAllCapAux : Nat → Option Char → List Char → List (List Char)
  | 0, _, _ => []
  | _ + 1, _, [] => []
  | fuel + 1, prev, c :: cs =>
    let boundaryOk := match prev with
      | some pc => !isWordRe pc
      | none => true
    if boundaryOk then
      match (pcapSeqB (c :: cs)).head? with
      | some (g, rest) =>
        g :: (if rest.length ≤ cs.length then findAllCapAux fuel g.getLast? rest
              else findAllCapAux fuel (some c) cs)
      | none => findAllCapAux fuel (some c) cs
    else findAllCapAux fuel (some c) cs

def findAllCap (s : List Char) : List (List Char) := findAllCapAux (s.length + 1) none s

/-- The stop-word set of `_extract_company_name`. -/
def stopWords : List (List Char) :=
  ["The".toList, "This".toList, "That".toList, "These".toList, "Those".toList,
   "A".toList, "An".toList, "And".toList, "But".toList, "Or".toList,
   "So".toList, "Yet".toList]

/-- Python `str.split()`: split on whitespace runs, dropping empties
(fuel-bounded; `splitWs` supplies sufficient fuel). -/
def splitWsAux : Nat → List Char → List (List Char)
  | 0, _ => []
  | _ + 1, [] => []
  | fuel + 1, c :: cs =>
    if isSpaceRe c then splitWsAux fuel cs
    else
      let w := (c :: cs).takeWhile (fun x => !isSpaceRe x)
      w :: splitWsAux fuel ((c :: cs).drop w.length)

def splitWs (s : List Char) : List (List Char) := splitWsAux (s.length + 1) s

/-- The keyword gate: `any(keyword in text.lower() for keyword in
['startup', 'company', 'firm', 'corp'])`. -/
def keywordHit (text : List Char) : Bool :=
  let low := text.map Char.toLower
  subStr "startup".toList low || subStr "company".toList low ||
  subStr "firm".toList low || subStr "corp".toList low

/-- The fallback loop of `_extract_company_name`. -/
def fallbackCompany (text : List Char) : List (List Char) → List Char
  | [] => []
  | m :: ms =>
    let ws := splitWs m
    if ws.length ≤ 3 && !(ws.any (fun w => stopWords.contains w)) then
      if keywordHit text then m else fallbackCompany text ms
    else fallbackCompany text ms

/-- `RevenueAnalyzer._extract_company_name`. -/
def extractCompanyName (text : List Char) : List Char :=
  match primaryCompanyLoop text companyPatterns with
  | some name => name
  | none => fallbackCompany text (findAllCap text)

/-! ## `RevenueAnalyzer.analyze_article` -/

/-- `RevenueAnalyzer.analyze_article` on an article's title and content:
builds `f"{article.title} {article.content}"`, extracts revenue
information, and attempts company attribution only for a threshold-passing
signal. -/
def analyzeArticle (th : ℚ) (title content : List Char) :
    Bool × Option ℚ × List Char × List Char :=
  let text := title ++ ' ' :: content
  match extractRevenueInfo th text with
  | some (ty, amt) =>
    if th ≤ amt then (true, some amt, ty, extractCompanyName text)
    else (false, none, [], [])
  | none => (false, none, [], [])

/-! ## `database.Article` and the scraper (`scraper.py`) -/

/-- `database.Article` (the fields the pipeline writes); `published_date`
is modelled as the article's age in days relative to `datetime.now()`. -/
structure Article where
  source : List Char := []
  title : List Char := []
  url : List Char := []
  content : List Char := []
  ageDays : Option Int := none
  revenueFound : Bool := false
  revenueAmount : Option ℚ := none
  revenueType : List Char := []
  companyName : List Char := []
deriving DecidableEq, Repr

/-- A parsed feed entry (`feedparser` output), with `published_parsed`
modelled as an age in days. -/
structure Entry where
  link : List Char
  title : List Char := []
  ageDays : Option Int := none
deriving DecidableEq, Repr

/-- Python exceptions that the scraper's handlers catch. -/
inductive PyErr
  | typeError
  | dbError
deriving DecidableEq, Repr

/-- The collaborators `scrape_rss_feed` calls per entry:
`Database.article_exists` and `WebScraper.get_article_content` (the latter
catches all of its own errors and returns a string). -/
structure RssEnv where
  sourceName : List Char
  threshold : ℚ
  articleExists : List Char → Bool
  getContent : List Char → List Char

/-- The body of `scrape_rss_feed`'s `for entry in feed.entries[:20]` loop
for one entry.  `.ok none` models `continue` (already-seen or stale entry);
an exception is `.error`.  After building the article the code runs
`revenue_info = self.revenue_analyzer.analyze_article(article)` and then
`if revenue_info:` — `analyze_article` returns a 4-tuple, which is always
truthy — followed by `revenue_info['amount']`, which subscripts the tuple
with a string key and raises `TypeError`, so the append/save lines below it
(modelled by the `.ok some` shape of the result) are never reached. -/
def processEntry (env : RssEnv) (e : Entry) : Except PyErr (Option Article) :=
  if env.articleExists e.link then .ok none
  else if (match e.ageDays with | some d => decide (7 < d) | none => false) then .ok none
  else
    let content := env.getContent e.link
    let _article : Article :=
      { source := env.sourceName, title := e.title, url := e.link,
        content := content, ageDays := e.ageDays }
    let _rinfo := analyzeArticle env.threshold e.title content
    .error .typeError

/-- The entry loop of `scrape_rss_feed` with its surrounding
`try/except` (lines 108-153): the handler sits outside the `for` loop, so
an exception raised for one entry stops the loop and the function returns
the `articles` accumulated before it. -/
def rssLoop (env : RssEnv) : List Entry → List Article → List Article
  | [], acc => acc
  | e :: es, acc =>
    match processEntry env e with
    | .ok none => rssLoop env es acc
    | .ok (some a) => rssLoop env es (acc ++ [a])
    | .error _ => acc

/-- `WebScraper.scrape_rss_feed`. -/
def scrapeRssFeed (env : RssEnv) (entries : List Entry) : List Article :=
  rssLoop env (entries.take 20) []

/-- The feed stage of `scrape_source`: `none` when the source has no
`rss_feed` key; `.error` models an exception from `scrape_rss_feed`, caught
by the `except` at lines 91-92 with `articles` left empty. -/
def feedStage (rssStage : Option (Except PyErr (List Article))) : List Article :=
  match rssStage with
  | some (.ok as) => as
  | some (.error _) => []
  | none => []

/-- `WebScraper.scrape_source`: the web-crawl fallback runs exactly when
the feed stage produced fewer than 10 articles.  The second component
records whether `scrape_website` was invoked. -/
def scrapeSource (rssStage : Option (Except PyErr (List Article)))
    (webStage : Except PyErr (List Article)) : List Article × Bool :=
  let articles := feedStage rssStage
  if articles.length < 10 then
    match webStage with
    | .ok ws => (articles ++ ws, true)
    | .error _ => (articles, true)
  else (articles, false)

/-! ## The deduplication protocol (`article_exists` + `save_article`)

`scrape_rss_feed` deduplicates with two separate database calls: a
`SELECT` (`Database.article_exists`, line 113) and, after the article has
already been handed to the revenue analyzer, an `INSERT OR REPLACE`
(`Database.save_article`, line 147).  The insert is unreachable: the entry
loop raises `TypeError` at `revenue_info['amount']` (line 140, after the
analyzer already received the article and before the append/save lines),
exactly as `processEntry` models, so a fetch that finds the address absent
emits the article and then aborts without recording anything.  The model
below runs two fetches of the same canonical address against the shared
table, each database call atomic, with an explicit interleaving
schedule. -/

/-- One fetch handling the shared address: `pc = 0` — about to call
`article_exists`; `pc = 1` — the check returned `False`, about to hand the
article to the revenue analyzer; `pc = 2` — done.  `emitted` counts
articles this fetch handed to the analyzer. -/
structure DedupWorker where
  pc : Nat
  emitted : Nat
deriving DecidableEq, Repr

structure DedupSys where
  recorded : Bool
  w1 : DedupWorker
  w2 : DedupWorker
deriving DecidableEq, Repr

/-- The `pc = 1` step hands the article to the analyzer
(`analyze_article`, scraper.py line 137); the subsequent
`revenue_info['amount']` raises `TypeError` before `articles.append` and
`self.db.save_article`, so the fetch finishes without inserting the
address. -/
def stepWorker (recorded : Bool) (w : DedupWorker) : Bool × DedupWorker :=
  match w.pc with
  | 0 => if recorded then (recorded, { w with pc := 2 }) else (recorded, { w with pc := 1 })
  | 1 => (recorded, { pc := 2, emitted := w.emitted + 1 })
  | _ => (recorded, w)

/-- Run one atomic step of the first (`true`) or second (`false`) fetch. -/
def stepSys (s : DedupSys) (first : Bool) : DedupSys :=
  if first then
    let r := stepWorker s.recorded s.w1
    { s with recorded := r.1, w1 := r.2 }
  else
    let r := stepWorker s.recorded s.w2
    { s with recorded := r.1, w2 := r.2 }

def runSched (sched : List Bool) (s : DedupSys) : DedupSys := sched.foldl stepSys s

def dedupInit : DedupSys := ⟨false, ⟨0, 0⟩, ⟨0, 0⟩⟩

def totalEmitted (s : DedupSys) : Nat := s.w1.emitted + s.w2.emitted

/-! ## `WebScraper.get_article_content` -/

/-- The soup of a successfully fetched page: `selFirstText sel` is
`elements[0].get_text(strip=True)` for `soup.select(sel)` (`none` when the
selector matches no element); `bodyText` is `soup.get_text(strip=True)`. -/
structure Soup where
  selFirstText : List Char → Option (List Char)
  bodyText : List Char

/-- The `content_selectors` list of `get_article_content`. -/
def contentSelectors : List (List Char) :=
  [".article-content".toList, ".post-content".toList, ".entry-content".toList,
   ".content".toList, "article".toList, ".story-body".toList, ".article-body".toList]

/-- The selector loop: `content` keeps the text of the last selector that
matched anything, and the loop breaks at the first text longer than 200
characters. -/
def selectorFold (soup : Soup) : List (List Char) → List Char → List Char
  | [], acc => acc
  | sel :: rest, acc =>
    match soup.selFirstText sel with
    | some t => if 200 < t.length then t else selectorFold soup rest t
    | none => selectorFold soup rest acc

/-- `WebScraper.get_article_content`.  The first stage,
`newspaper.Article(url)`, always raises `NameError` (the `import newspaper`
line was removed), is caught, and falls through; `fetch = none` models the
`requests` stage raising, caught by the handler that returns `""`. -/
def getArticleContent (fetch : Option Soup) : List Char :=
  match fetch with
  | none => []
  | some soup =>
    let content := selectorFold soup contentSelectors []
    let content := if content.isEmpty then soup.bodyText else content
    content.take 10000

/-! ## Derived characterizations and concrete inputs used by the theorems -/

/-- An article with every field at its `database.Article` default. -/
def blankArticle : Article := {}

/-- The accept/reject decision `_extract_revenue_info` takes for one match,
as a single `Option`-valued function (used to characterize the inner loop
as a first-accepted-match search). -/
def acceptMatch (th : ℚ) (m : MatchRec) : Option (List Char × ℚ) :=
  match parseFloat (cleanAmount m.amount) with
  | none => none
  | some a =>
    let amt := convertUnit (unitLower m) a
    if th ≤ amt then some (typeOf m, amt) else none

/-- The lowercased unit tokens the seven revenue patterns can capture. -/
def allowedUnits : List (List Char) :=
  ["million".toList, "m".toList, "mn".toList, "billion".toList]

/-- Concrete environment for the feed-loop claims: every address is new,
every page's content is a threshold-passing revenue disclosure. -/
def c3Env : RssEnv :=
  { sourceName := "techcrunch".toList
    threshold := REVENUE_THRESHOLD
    articleExists := fun _ => false
    getContent := fun _ => "$45 million in revenue".toList }

def c3Entry1 : Entry := { link := "https://example.com/a1".toList, title := "A1".toList }

def c3Entry2 : Entry := { link := "https://example.com/a2".toList, title := "A2".toList }

/-- A text containing both a phrase preceding "raised" (`Bizcorp`) and a
different phrase following "company" (`Acme`). -/
def c4Text : List Char := "The company Acme, while Bizcorp raised $5".toList

/-- Pattern-1 match first in the text, pattern-3 match later. -/
def c6TextA : List Char := "$50 million in revenue and revenue reached $60 million".toList

/-- Pattern-3 match first in the text, pattern-1 match later. -/
def c6TextB : List Char := "revenue reached $60 million and $50 million in revenue".toList

/-- Two pattern-1 matches, the earlier one smaller. -/
def c6TextC : List Char := "$40 million in revenue and $70 million in sales".toList

/-! ## Combinator lemmas -/

theorem mem_joinMap {α β : Type} {f : α → List β} {b : β} :
    ∀ {l : List α}, b ∈ joinMap f l ↔ ∃ a, a ∈ l ∧ b ∈ f a := by
  intro l
  induction l with
  | nil => simp [joinMap]
  | cons a as ih =>
    simp only [joinMap, List.mem_append, ih, List.mem_cons]
    constructor
    · rintro (h | ⟨x, hx, hb⟩)
      · exact ⟨a, Or.inl rfl, h⟩
      · exact ⟨x, Or.inr hx, hb⟩
    · rintro ⟨x, (rfl | hx), hb⟩
      · exact Or.inl hb
      · exact Or.inr ⟨x, hx, hb⟩

theorem mem_pbind {α β : Type} {p : Parser α} {f : α → Parser β} {s : List Char}
    {x : β × List Char} :
    x ∈ pbind p f s ↔ ∃ a s1, (a, s1) ∈ p s ∧ x ∈ f a s1 := by
  simp only [pbind, mem_joinMap]
  constructor
  · rintro ⟨⟨a, s1⟩, hmem, hx⟩
    exact ⟨a, s1, hmem, hx⟩
  · rintro ⟨a, s1, hmem, hx⟩
    exact ⟨(a, s1), hmem, hx⟩

theorem mem_palt {α : Type} {p q : Parser α} {s : List Char} {x : α × List Char} :
    x ∈ palt p q s ↔ x ∈ p s ∨ x ∈ q s := by
  simp [palt]

theorem mem_ppure {α : Type} {a : α} {s : List Char} {x : α × List Char} :
    x ∈ ppure a s ↔ x = (a, s) := by
  simp [ppure]

theorem headq_mem {α : Type} {l : List α} {x : α} (h : l.head? = some x) : x ∈ l := by
  cases l with
  | nil => simp at h
  | cons a as => simp at h; simp [h]

/-! ## Threshold-gate lemmas (`_extract_revenue_info`) -/

theorem processMatches_some_le {th : ℚ} :
    ∀ {ms : List MatchRec} {ty : List Char} {amt : ℚ},
      processMatches th ms = some (ty, amt) → th ≤ amt := by
  intro ms
  induction ms with
  | nil => intro ty amt h; simp [processMatches] at h
  | cons m ms ih =>
    intro ty amt h
    rw [processMatches] at h
    cases hp : parseFloat (cleanAmount m.amount) with
    | none => rw [hp] at h; exact ih h
    | some a =>
      rw [hp] at h
      dsimp only at h
      split at h
      · rename_i hle
        rcases h with ⟨⟩
        exact hle
      · exact ih h

theorem extractLoop_some_le {th : ℚ} {text : List Char} :
    ∀ {l : List (Parser MatchRec)} {ty : List Char} {amt : ℚ},
      extractLoop th text l = some (ty, amt) → th ≤ amt := by
  intro l
  induction l with
  | nil => intro ty amt h; simp [extractLoop] at h
  | cons p ps ih =>
    intro ty amt h
    rw [extractLoop] at h
    cases hp : processMatches th (findIter p text) with
    | none => rw [hp] at h; exact ih h
    | some r =>
      rw [hp] at h
      rcases h with ⟨⟩
      exact processMatches_some_le hp

/-- C1.  The revenue extractor returns a signal only when the normalized
amount reaches the configured threshold: a match whose amount fails to
parse is discarded with scanning continuing, a match normalizing below the
threshold produces no signal at all (scanning continues past it), and the
default threshold is 30 (millions). -/
theorem c1_threshold_gate :
    (∀ (th : ℚ) (text ty : List Char) (amt : ℚ),
       extractRevenueInfo th text = some (ty, amt) → th ≤ amt)
    ∧ (∀ (th : ℚ) (m : MatchRec) (ms : List MatchRec),
         parseFloat (cleanAmount m.amount) = none →
         processMatches th (m :: ms) = processMatches th ms)
    ∧ (∀ (th : ℚ) (m : MatchRec) (ms : List MatchRec) (a : ℚ),
         parseFloat (cleanAmount m.amount) = some a →
         convertUnit (unitLower m) a < th →
         processMatches th (m :: ms) = processMatches th ms)
    ∧ REVENUE_THRESHOLD = 30 := by
  refine ⟨?_, ?_, ?_, rfl⟩
  · intro th text ty amt h
    exact extractLoop_some_le h
  · intro th m ms hp
    rw [processMatches, hp]
  · intro th m ms a hp hlt
    rw [processMatches, hp]
    dsimp only
    rw [if_neg (not_le.mpr hlt)]

/-- Witness for C1 at concrete inputs: `"$45 million in revenue"` yields a
signal of 45 ≥ 30, and a match with the unparseable amount `"x"` is
skipped. -/
theorem c1_threshold_gate_witness :
    (30 : ℚ) ≤ 45 ∧
      processMatches 30 [⟨"x".toList, none, none⟩] = processMatches 30 [] := by
  constructor
  · exact c1_threshold_gate.1 30 "$45 million in revenue".toList "revenue".toList 45
      (by decide)
  · exact c1_threshold_gate.2.1 30 ⟨"x".toList, none, none⟩ [] (by decide)

/-! ## C10: `analyze_article` on signal-free articles -/

/-- C10.  When no threshold-passing revenue match exists in the combined
title-plus-content text, `analyze_article` returns exactly
`(False, None, "", "")`, and a non-empty company name is only returned for
a threshold-passing signal. -/
theorem c10_no_signal_quadruple :
    (∀ (th : ℚ) (title content : List Char),
       (extractRevenueInfo th (title ++ ' ' :: content) = none ∨
        ∃ ty amt, extractRevenueInfo th (title ++ ' ' :: content) = some (ty, amt) ∧ amt < th) →
       analyzeArticle th title content = (false, none, [], []))
    ∧ (∀ (th : ℚ) (title content : List Char),
        (analyzeArticle th title content).2.2.2 ≠ [] →
        ∃ ty amt, extractRevenueInfo th (title ++ ' ' :: content) = some (ty, amt) ∧
          th ≤ amt) := by
  constructor
  · intro th title content h
    rcases h with h | ⟨ty, amt, h, hlt⟩
    · simp [analyzeArticle, h]
    · simp [analyzeArticle, h, not_le.mpr hlt]
  · intro th title content h
    rcases hx : extractRevenueInfo th (title ++ ' ' :: content) with _ | ⟨ty, amt⟩
    · rw [analyzeArticle] at h
      rw [hx] at h
      simp at h
    · rw [analyzeArticle] at h
      rw [hx] at h
      dsimp only at h
      split at h
      · rename_i hle
        exact ⟨ty, amt, rfl, hle⟩
      · simp at h

/-- Witness for C10: the text `"hello world"` has no revenue match, and
`analyze_article` returns the empty quadruple on it. -/
theorem c10_no_signal_quadruple_witness :
    analyzeArticle 30 "hello".toList "world".toList = (false, none, [], []) :=
  c10_no_signal_quadruple.1 30 "hello".toList "world".toList (Or.inl (by decide))

/-! ## C5: feed-first with crawl fallback (`scrape_source`) -/

/-- C5.  The HTML-crawl fallback runs exactly when the feed stage yields
fewer than 10 articles (including when no feed is configured): with 15 feed
articles the crawl is not invoked, with 3 it is and its results are
appended after the feed's. -/
theorem c5_fallback_threshold :
    (∀ rssStage webStage,
       (scrapeSource rssStage webStage).2 = decide ((feedStage rssStage).length < 10))
    ∧ (∀ (as : List Article) web, 10 ≤ as.length →
         scrapeSource (some (.ok as)) web = (as, false))
    ∧ (∀ (as ws : List Article), as.length < 10 →
         scrapeSource (some (.ok as)) (.ok ws) = (as ++ ws, true))
    ∧ (∀ (ws : List Article), scrapeSource none (.ok ws) = (ws, true))
    ∧ scrapeSource (some (.ok (List.replicate 15 blankArticle))) (.ok [blankArticle]) =
        (List.replicate 15 blankArticle, false)
    ∧ scrapeSource (some (.ok (List.replicate 3 blankArticle)))
        (.ok (List.replicate 2 blankArticle)) =
        (List.replicate 3 blankArticle ++ List.replicate 2 blankArticle, true) := by
  refine ⟨?_, ?_, ?_, ?_, by decide, by decide⟩
  · intro rssStage webStage
    by_cases h : (feedStage rssStage).length < 10
    · simp only [scrapeSource]
      rw [if_pos h]
      cases webStage <;> simp [h]
    · simp only [scrapeSource]
      rw [if_neg h]
      simp [h]
  · intro as web h
    simp only [scrapeSource, feedStage]
    rw [if_neg (by omega)]
  · intro as ws h
    simp only [scrapeSource, feedStage]
    rw [if_pos h]
  · intro ws
    simp only [scrapeSource, feedStage]
    rw [if_pos (by simp)]
    simp

/-- Witness for C5 at concrete feed sizes 15 and 3. -/
theorem c5_fallback_threshold_witness :
    scrapeSource (some (.ok (List.replicate 15 blankArticle))) (.error .dbError) =
      (List.replicate 15 blankArticle, false) ∧
    scrapeSource (some (.ok (List.replicate 3 blankArticle))) (.ok [blankArticle]) =
      (List.replicate 3 blankArticle ++ [blankArticle], true) := by
  constructor
  · exact c5_fallback_threshold.2.1 (List.replicate 15 blankArticle) (.error .dbError)
      (by decide)
  · exact c5_fallback_threshold.2.2.1 (List.replicate 3 blankArticle) [blankArticle]
      (by decide)

/-! ## C7: the deduplication race -/

theorem stepWorker_fst (r : Bool) (w : DedupWorker) : (stepWorker r w).1 = r := by
  rcases w with ⟨pc, em⟩
  rcases pc with _ | (_ | n)
  · cases r <;> rfl
  · rfl
  · rfl

theorem stepSys_recorded (s : DedupSys) (b : Bool) : (stepSys s b).recorded = s.recorded := by
  cases b <;> simp [stepSys, stepWorker_fst]

theorem runSched_recorded :
    ∀ (sched : List Bool) (s : DedupSys), (runSched sched s).recorded = s.recorded := by
  intro sched
  induction sched with
  | nil => intro s; rfl
  | cons b bs ih =>
    intro s
    show (runSched bs (stepSys s b)).recorded = s.recorded
    rw [ih, stepSys_recorded]

theorem stepSys_skip {s : DedupSys} (b : Bool)
    (h : s.recorded = true ∧ s.w1.pc ≠ 1 ∧ s.w2.pc ≠ 1 ∧ totalEmitted s = 0) :
    (stepSys s b).recorded = true ∧ (stepSys s b).w1.pc ≠ 1 ∧ (stepSys s b).w2.pc ≠ 1 ∧
      totalEmitted (stepSys s b) = 0 := by
  obtain ⟨hr, h1, h2, he⟩ := h
  rcases s with ⟨r, ⟨pc1, em1⟩, ⟨pc2, em2⟩⟩
  subst hr
  cases b
  · rcases pc2 with _ | (_ | n)
    · exact ⟨rfl, h1, show (2 : Nat) ≠ 1 by decide, he⟩
    · exact absurd rfl h2
    · exact ⟨rfl, h1, h2, he⟩
  · rcases pc1 with _ | (_ | n)
    · exact ⟨rfl, show (2 : Nat) ≠ 1 by decide, h2, he⟩
    · exact absurd rfl h1
    · exact ⟨rfl, h1, h2, he⟩

theorem runSched_skip :
    ∀ (sched : List Bool) (s : DedupSys),
      s.recorded = true ∧ s.w1.pc ≠ 1 ∧ s.w2.pc ≠ 1 ∧ totalEmitted s = 0 →
      totalEmitted (runSched sched s) = 0 := by
  intro sched
  induction sched with
  | nil => intro s h; exact h.2.2.2
  | cons b bs ih =>
    intro s h
    show totalEmitted (runSched bs (stepSys s b)) = 0
    exact ih _ (stepSys_skip b h)

/-- C7 counterexample.  The code has no atomic insert-if-absent: it
deduplicates with a bare `article_exists` `SELECT`, and the
`save_article` insert is unreachable (the `TypeError` at
`revenue_info['amount']` aborts each entry after the analyzer already
received the article).  Two fetches discovering the same new address both
hand their article to the revenue analyzer — not exactly one. -/
theorem c7_counterexample :
    totalEmitted (runSched [true, false, true, false] dedupInit) = 2 ∧ (2 : Nat) ≠ 1 := by
  decide

/-- C7 amended.  Two concurrent fetches of the same new canonical address
both reach the revenue analyzer under every schedule — serial or
interleaved — because the exists check and the (never-reached) insert are
separate calls and nothing ever records the address (`recorded` stays
false after any schedule).  Only an address already present in the
articles table before the fetches began is suppressed, by the exists
check, in which case neither fetch emits. -/
theorem c7_amended_dedup :
    totalEmitted (runSched [true, true, false, false] dedupInit) = 2 ∧
    totalEmitted (runSched [true, false, true, false] dedupInit) = 2 ∧
    (∀ sched : List Bool, (runSched sched dedupInit).recorded = false) ∧
    (∀ sched : List Bool, totalEmitted (runSched sched ⟨true, ⟨0, 0⟩, ⟨0, 0⟩⟩) = 0) := by
  refine ⟨by decide, by decide, ?_, ?_⟩
  · intro sched
    rw [runSched_recorded]
    rfl
  · intro sched
    exact runSched_skip sched ⟨true, ⟨0, 0⟩, ⟨0, 0⟩⟩ ⟨rfl, by decide, by decide, rfl⟩

/-! ## C8: content length bound -/

/-- C8.  Whatever the fallback chain produced, the text
`get_article_content` returns is at most 10,000 characters long.  (The
rich-extraction stage cannot return: `newspaper` is undefined, so that
stage always raises and falls through to the truncating stage.) -/
theorem c8_content_bounded :
    ∀ fetch, (getArticleContent fetch).length ≤ 10000 := by
  intro fetch
  cases fetch with
  | none => simp [getArticleContent]
  | some soup =>
    simp only [getArticleContent, List.length_take]
    omega

/-! ## C2: the unit-less normalization heuristic is never exercised -/

/-- C2 counterexample.  The claim states that `"30000000 in ARR"` (no unit
token, amount > 1000) normalizes to the same 30.0 as `"$30 million ARR"`;
in fact every configured pattern requires a unit token, so `"30000000 in
ARR"` matches no pattern and the extractor returns no signal for it at
all. -/
theorem c2_counterexample :
    extractRevenueInfo REVENUE_THRESHOLD "30000000 in ARR".toList = none ∧
    extractRevenueInfo REVENUE_THRESHOLD "$30 million ARR".toList =
      some ("ARR".toList, 30) ∧
    ∀ (ty : List Char) (amt : ℚ),
      extractRevenueInfo REVENUE_THRESHOLD "30000000 in ARR".toList ≠ some (ty, amt) := by
  have h1 : extractRevenueInfo REVENUE_THRESHOLD "30000000 in ARR".toList = none := by
    decide
  refine ⟨h1, by decide, ?_⟩
  intro ty amt h
  rw [h1] at h
  exact Option.noConfusion h

/-- C2 amended.  `"$30 million ARR"` yields the signal (ARR, 30.0), while
`"30000000 in ARR"` matches no configured pattern (each pattern demands a
unit token), so the extractor returns no signal for it; the
divide-by-1,000,000 fallback is not reached. -/
theorem c2_amended :
    extractRevenueInfo REVENUE_THRESHOLD "$30 million ARR".toList =
      some ("ARR".toList, 30) ∧
    extractRevenueInfo REVENUE_THRESHOLD "30000000 in ARR".toList = none := by
  exact ⟨by decide, by decide⟩

/-! ## C3: an article-level failure stops the source's loop -/

/-- C3 counterexample.  Both entries are new (nothing in the database, both
fresh), the first entry's processing raises (`revenue_info['amount']`
subscripts the analyzer's tuple result with a string and raises
`TypeError`), and — because the `try/except` of `scrape_rss_feed` wraps the
whole entry loop — the second entry is never processed: the source returns
`[]`, not a list containing an article for the second entry. -/
theorem c3_counterexample :
    processEntry c3Env c3Entry1 = .error .typeError ∧
    scrapeRssFeed c3Env [c3Entry1, c3Entry2] = [] := by
  exact ⟨rfl, rfl⟩

/-- C3 amended.  A failure raised while processing a single article is
caught by the handler wrapping the source's whole entry loop: the loop
stops and the articles accumulated before the failure are returned, so the
remaining entries of that source are skipped (an entry skipped by
`continue`, by contrast, lets the loop keep going). -/
theorem c3_amended_abort :
    (∀ (env : RssEnv) (e : Entry) (es : List Entry) (acc : List Article) (err : PyErr),
       processEntry env e = .error err → rssLoop env (e :: es) acc = acc)
    ∧ (∀ (env : RssEnv) (e : Entry) (es : List Entry) (acc : List Article),
        processEntry env e = .ok none → rssLoop env (e :: es) acc = rssLoop env es acc) := by
  constructor
  · intro env e es acc err h
    rw [rssLoop, h]
  · intro env e es acc h
    rw [rssLoop, h]

/-- Witness for the amended C3 at a concrete failing entry. -/
theorem c3_amended_abort_witness :
    rssLoop c3Env [c3Entry1, c3Entry2] [] = [] :=
  c3_amended_abort.1 c3Env c3Entry1 [c3Entry2] [] .typeError rfl

/-! ## C4: company-pattern priority order -/

/-- C4 counterexample.  For a text with both a phrase preceding "raised"
(`Bizcorp`) and a different phrase following "company" (`Acme`), the
attributor returns the phrase following "company", because
`company_patterns` lists the startup/company-prefixed pattern first — not
the phrase preceding "raised" that the claim names. -/
theorem c4_counterexample :
    extractCompanyName c4Text = "Acme".toList ∧ "Acme".toList ≠ "Bizcorp".toList := by
  decide

/-- C4 amended.  The attributor tries its primary patterns in the order
(1) capitalized phrase following "startup"/"company", (2) preceding
"raised/secured/announced", (3) preceding "reported/generated/posted"; the
first match in that order (then by position) whose stripped phrase is
longer than 2 characters is returned, so for a text with both a phrase
preceding "raised" and a different phrase following "company", the phrase
following "company" is returned. -/
theorem c4_amended_priority :
    companyPatterns = [patCompany0, patCompany1, patCompany2]
    ∧ (∀ (text g : List Char), searchP patCompany0 text = some g →
        2 < (stripL g).length → extractCompanyName text = stripL g)
    ∧ extractCompanyName c4Text = "Acme".toList := by
  refine ⟨rfl, ?_, by decide⟩
  intro text g h hlen
  have hp : primaryCompanyLoop text companyPatterns = some (stripL g) := by
    show primaryCompanyLoop text [patCompany0, patCompany1, patCompany2] = _
    rw [primaryCompanyLoop, h]
    dsimp only
    rw [if_pos hlen]
  rw [extractCompanyName, hp]

/-- Witness for the amended C4 at the concrete text. -/
theorem c4_amended_priority_witness :
    extractCompanyName c4Text = stripL "Acme".toList :=
  c4_amended_priority.2.1 c4Text "Acme".toList (by decide) (by decide)

/-! ## C6: pattern-list priority before text position -/

/-- C6.  The extractor checks the whole pattern list in order: in both
texts (pattern-1 match before or after the pattern-3 match) the pattern-1
match ($50 million) is returned, even though pattern 3 alone would have
found $60 million first in the second text; within one pattern the
earliest threshold-passing match wins (the inner loop is a
first-accepted-match search over the matches in text order, and a pattern
yielding a signal preempts the rest of the pattern list). -/
theorem c6_pattern_priority :
    extractRevenueInfo 30 c6TextA = some ("revenue".toList, 50)
    ∧ extractRevenueInfo 30 c6TextB = some ("revenue".toList, 50)
    ∧ processMatches 30 (findIter pat3 c6TextB) = some ("revenue".toList, 60)
    ∧ extractRevenueInfo 30 c6TextC = some ("revenue".toList, 40)
    ∧ (∀ (th : ℚ) (ms : List MatchRec),
        processMatches th ms = List.findSome? (acceptMatch th) ms)
    ∧ (∀ (th : ℚ) (text : List Char) (p : Parser MatchRec) (ps : List (Parser MatchRec))
        (r : List Char × ℚ), processMatches th (findIter p text) = some r →
        extractLoop th text (p :: ps) = some r)
    ∧ (∀ (th : ℚ) (text : List Char) (p : Parser MatchRec) (ps : List (Parser MatchRec)),
        processMatches th (findIter p text) = none →
        extractLoop th text (p :: ps) = extractLoop th text ps) := by
  refine ⟨by decide, by decide, by decide, by decide, ?_, ?_, ?_⟩
  · intro th ms
    induction ms with
    | nil => rfl
    | cons m ms ih =>
      rw [processMatches, List.findSome?]
      cases hp : parseFloat (cleanAmount m.amount) with
      | none => simp [acceptMatch, hp, ih]
      | some a =>
        simp only [acceptMatch, hp]
        by_cases hc : th ≤ convertUnit (unitLower m) a
        · simp [hc]
        · simp [hc, ih]
  · intro th text p ps r h
    rw [extractLoop, h]
  · intro th text p ps h
    rw [extractLoop, h]

/-- Witness for C6: pattern 1 already decides the second text inside the
full pattern list. -/
theorem c6_pattern_priority_witness :
    extractLoop 30 c6TextB [pat1, pat2, pat3, pat4, pat5, pat6, pat7] =
      some ("revenue".toList, 50) :=
  c6_pattern_priority.2.2.2.2.2.1 30 c6TextB pat1 [pat2, pat3, pat4, pat5, pat6, pat7]
    ("revenue".toList, 50) (by decide)

/-! ## C9: every captured unit is million/M/mn/billion -/

theorem plitCI_toLower :
    ∀ (w s r rest : List Char), (r, rest) ∈ plitCI w s →
      r.map Char.toLower = w.map Char.toLower := by
  intro w
  induction w with
  | nil =>
    intro s r rest h
    simp [plitCI] at h
    simp [h.1]
  | cons w0 ws ih =>
    intro s r rest h
    cases s with
    | nil => simp [plitCI] at h
    | cons c cs =>
      simp only [plitCI] at h
      by_cases hc : ciEq c w0
      · rw [if_pos hc] at h
        simp only [List.mem_map] at h
        obtain ⟨⟨r2, rest2⟩, hmem, heq⟩ := h
        injection heq with h1 h2
        subst h1
        subst h2
        simp only [List.map]
        rw [ih cs r2 rest2 hmem]
        have : c.toLower = w0.toLower := by
          have hb : (c.toLower == w0.toLower) = true := hc
          exact eq_of_beq hb
        rw [this]
      · rw [if_neg hc] at h
        simp at h

theorem mem_pfail {α : Type} {s : List Char} {x : α × List Char} :
    x ∈ pfail (α := α) s ↔ False := by
  simp [pfail]

theorem punitM_lower {s u rest : List Char} (h : (u, rest) ∈ punitM s) :
    u.map Char.toLower ∈ allowedUnits := by
  simp only [punitM, palts, mem_palt, mem_pfail, or_false] at h
  rcases h with h | h | h
  · rw [plitCI_toLower _ _ _ _ h]; decide
  · rw [plitCI_toLower _ _ _ _ h]; decide
  · rw [plitCI_toLower _ _ _ _ h]; decide

theorem punitB_lower {s u rest : List Char} (h : (u, rest) ∈ punitB s) :
    u.map Char.toLower ∈ allowedUnits := by
  rw [punitB] at h
  rw [plitCI_toLower _ _ _ _ h]
  decide

theorem pat1_unit {s : List Char} {x : MatchRec × List Char} (h : x ∈ pat1 s) :
    ∃ u, x.1.unitTok = some u ∧ u.map Char.toLower ∈ allowedUnits := by
  simp only [pat1, mem_pbind, mem_ppure] at h
  obtain ⟨d, s1, hd, amt, s2, ha, sp1, s3, hs1, u, s4, hu, sp2, s5, hs2, i6, s6, hi,
    ty, s7, hty, hx⟩ := h
  subst hx
  exact ⟨u, rfl, punitM_lower hu⟩

theorem pat2_unit {s : List Char} {x : MatchRec × List Char} (h : x ∈ pat2 s) :
    ∃ u, x.1.unitTok = some u ∧ u.map Char.toLower ∈ allowedUnits := by
  simp only [pat2, mem_pbind, mem_ppure] at h
  obtain ⟨amt, s1, ha, sp1, s2, hs1, u, s3, hu, sp2, s4, hs2, d5, s5, hd, sp3, s6, hs3,
    i7, s7, hi, ty, s8, hty, hx⟩ := h
  subst hx
  exact ⟨u, rfl, punitM_lower hu⟩

theorem patKindFirst_unit {kw s : List Char} {x : MatchRec × List Char}
    (h : x ∈ patKindFirst kw s) :
    ∃ u, x.1.unitTok = some u ∧ u.map Char.toLower ∈ allowedUnits := by
  simp only [patKindFirst, mem_pbind, mem_ppure] at h
  obtain ⟨ty, s1, hty, sp1, s2, hs1, v3, s3, hv, sp2, s4, hs2, d5, s5, hd, amt, s6, ha,
    sp3, s7, hs3, u, s8, hu, hx⟩ := h
  subst hx
  exact ⟨u, rfl, punitM_lower hu⟩

theorem pat6_unit {s : List Char} {x : MatchRec × List Char} (h : x ∈ pat6 s) :
    ∃ u, x.1.unitTok = some u ∧ u.map Char.toLower ∈ allowedUnits := by
  simp only [pat6, mem_pbind, mem_ppure] at h
  obtain ⟨d, s1, hd, amt, s2, ha, sp1, s3, hs1, u, s4, hu, sp2, s5, hs2, i6, s6, hi,
    ty, s7, hty, hx⟩ := h
  subst hx
  exact ⟨u, rfl, punitB_lower hu⟩

theorem pat7_unit {s : List Char} {x : MatchRec × List Char} (h : x ∈ pat7 s) :
    ∃ u, x.1.unitTok = some u ∧ u.map Char.toLower ∈ allowedUnits := by
  simp only [pat7, mem_pbind, mem_ppure] at h
  obtain ⟨amt, s1, ha, sp1, s2, hs1, u, s3, hu, sp2, s4, hs2, d5, s5, hd, sp3, s6, hs3,
    i7, s7, hi, ty, s8, hty, hx⟩ := h
  subst hx
  exact ⟨u, rfl, punitB_lower hu⟩

theorem mem_findIterAux {α : Type} {p : Parser α} :
    ∀ {fuel : Nat} {s : List Char} {a : α}, a ∈ findIterAux p fuel s →
      ∃ s2 rest, (a, rest) ∈ p s2 := by
  intro fuel
  induction fuel with
  | zero => intro s a h; simp [findIterAux] at h
  | succ n ih =>
    intro s a h
    cases s with
    | nil =>
      rw [findIterAux] at h
      cases hh : (p []).head? with
      | none => rw [hh] at h; simp at h
      | some x =>
        rw [hh] at h
        rcases x with ⟨a0, rest0⟩
        simp at h
        subst h
        exact ⟨[], rest0, headq_mem hh⟩
    | cons c cs =>
      rw [findIterAux] at h
      cases hh : (p (c :: cs)).head? with
      | none => rw [hh] at h; exact ih h
      | some x =>
        rw [hh] at h
        rcases x with ⟨a0, rest0⟩
        rcases List.mem_cons.mp h with rfl | h2
        · exact ⟨c :: cs, rest0, headq_mem hh⟩
        · by_cases hl : rest0.length ≤ cs.length
          · rw [if_pos hl] at h2; exact ih h2
          · rw [if_neg hl] at h2; exact ih h2

theorem mem_findIter {α : Type} {p : Parser α} {text : List Char} {a : α}
    (h : a ∈ findIter p text) : ∃ s2 rest, (a, rest) ∈ p s2 :=
  mem_findIterAux h

theorem processMatches_some_mem {th : ℚ} :
    ∀ {ms : List MatchRec} {ty : List Char} {amt : ℚ},
      processMatches th ms = some (ty, amt) →
      ∃ m, m ∈ ms ∧ ∃ a, parseFloat (cleanAmount m.amount) = some a ∧
        amt = convertUnit (unitLower m) a := by
  intro ms
  induction ms with
  | nil => intro ty amt h; simp [processMatches] at h
  | cons m ms ih =>
    intro ty amt h
    rw [processMatches] at h
    cases hp : parseFloat (cleanAmount m.amount) with
    | none =>
      rw [hp] at h
      obtain ⟨m2, hm2, rest⟩ := ih h
      exact ⟨m2, List.mem_cons_of_mem _ hm2, rest⟩
    | some a =>
      rw [hp] at h
      dsimp only at h
      split at h
      · rcases h with ⟨⟩
        exact ⟨m, List.mem_cons_self _ _, a, hp, rfl⟩
      · obtain ⟨m2, hm2, rest⟩ := ih h
        exact ⟨m2, List.mem_cons_of_mem _ hm2, rest⟩

theorem extractLoop_some_mem {th : ℚ} {text : List Char} :
    ∀ {l : List (Parser MatchRec)} {r : List Char × ℚ},
      extractLoop th text l = some r →
      ∃ p, p ∈ l ∧ processMatches th (findIter p text) = some r := by
  intro l
  induction l with
  | nil => intro r h; simp [extractLoop] at h
  | cons p ps ih =>
    intro r h
    rw [extractLoop] at h
    cases hp : processMatches th (findIter p text) with
    | none =>
      rw [hp] at h
      obtain ⟨p2, hp2, hr⟩ := ih h
      exact ⟨p2, List.mem_cons_of_mem _ hp2, hr⟩
    | some r0 =>
      rw [hp] at h
      rcases h with ⟨⟩
      exact ⟨p, List.mem_cons_self _ _, hp⟩

theorem convertUnit_allowed {u : List Char} (hu : u ∈ allowedUnits) (a : ℚ) :
    convertUnit u a = a ∨ convertUnit u a = a * 1000 := by
  simp only [allowedUnits, List.mem_cons, List.not_mem_nil, or_false] at hu
  rcases hu with rfl | rfl | rfl | rfl
  · left; rw [convertUnit, if_neg (by decide), if_pos (by decide)]
  · left; rw [convertUnit, if_neg (by decide), if_pos (by decide)]
  · left; rw [convertUnit, if_neg (by decide), if_pos (by decide)]
  · right; rw [convertUnit, if_pos (by decide)]

/-- C9.  Every match any of the seven configured patterns can produce
carries a unit token that lowercases to million, m, mn, or billion, so the
thousand/k branch and the unit-less divide-by-1,000,000 branch of the
normalization are unreachable: every returned signal's amount is the
parsed number times exactly 1 or times 1000. -/
theorem c9_unit_tokens :
    (∀ p, p ∈ revenuePatterns → ∀ (s : List Char) (x : MatchRec × List Char),
       x ∈ p s → ∃ u, x.1.unitTok = some u ∧ u.map Char.toLower ∈ allowedUnits)
    ∧ (∀ (th : ℚ) (text ty : List Char) (amt : ℚ),
        extractRevenueInfo th text = some (ty, amt) →
        ∃ p, p ∈ revenuePatterns ∧ ∃ m, m ∈ findIter p text ∧ ∃ a : ℚ,
          parseFloat (cleanAmount m.amount) = some a ∧
          (amt = a ∨ amt = a * 1000)) := by
  have part1 : ∀ p, p ∈ revenuePatterns → ∀ (s : List Char) (x : MatchRec × List Char),
      x ∈ p s → ∃ u, x.1.unitTok = some u ∧ u.map Char.toLower ∈ allowedUnits := by
    intro p hp s x hx
    simp only [revenuePatterns, List.mem_cons, List.not_mem_nil, or_false] at hp
    rcases hp with rfl | rfl | rfl | rfl | rfl | rfl | rfl
    · exact pat1_unit hx
    · exact pat2_unit hx
    · exact patKindFirst_unit hx
    · exact patKindFirst_unit hx
    · exact patKindFirst_unit hx
    · exact pat6_unit hx
    · exact pat7_unit hx
  refine ⟨part1, ?_⟩
  intro th text ty amt h
  rw [extractRevenueInfo] at h
  obtain ⟨p, hpmem, hproc⟩ := extractLoop_some_mem h
  obtain ⟨m, hm, a, hpf, hamt⟩ := processMatches_some_mem hproc
  obtain ⟨s2, rest, hx⟩ := mem_findIter hm
  obtain ⟨u, huTok, hlow⟩ := part1 p hpmem s2 (m, rest) hx
  have hul : unitLower m = u.map Char.toLower := by
    rw [unitLower, huTok]
  refine ⟨p, hpmem, m, hm, a, hpf, ?_⟩
  rw [hamt, hul]
  exact convertUnit_allowed hlow a

/-- Witness for C9: the signal extracted from `"$45 million in revenue"`
comes from a pattern match whose parsed amount 45 is scaled by exactly 1. -/
theorem c9_unit_tokens_witness :
    ∃ p, p ∈ revenuePatterns ∧ ∃ m, m ∈ findIter p "$45 million in revenue".toList ∧
      ∃ a : ℚ, parseFloat (cleanAmount m.amount) = some a ∧
        ((45 : ℚ) = a ∨ (45 : ℚ) = a * 1000) :=
  c9_unit_tokens.2 30 "$45 million in revenue".toList "revenue".toList 45 (by decide)

end Sourcerer
